import Mathlib

/-!
Verification of a class-hierarchy summariser for Python modules.

The program (src/main.rs) reads a Python source file, parses it with an
external parser into a module body (a list of statement nodes), and filters
out the class-definition statements.  Its data model declares a `Class`
record (a qualified name and optional children).  The design documents a
Statement Filter and a Hierarchy Builder (`build` / `build_forest`); the
builder itself is not present in src/main.rs (the filtered class
definitions are bound but never consumed, and no `Class` value is ever
constructed), so the builder below is modelled from the design document
while the filter, the `Class` record and the CLI control flow are embedded
from the code.
-/

set_option linter.unusedVariables false

namespace ClassForest

/-- A statement node of the parsed syntax tree, abridged from the parser
library's statement enum to a representative closed set of variants: a
class definition carries its local name and body, a function definition its
name and body; the remaining kinds carry nothing the filter inspects (the
filter only examines the variant tag, so further variants of the real enum
behave exactly like these). -/
inductive Stmt : Type where
  | classDef (name : String) (body : List Stmt)
  | functionDef (name : String) (body : List Stmt)
  | assign
  | exprStmt
  | ret
  | pass

/-- The payload of a class-definition statement: its local name and its
ordered body, mirroring the parser library's `StmtClassDef` record (fields
irrelevant to this program, such as decorators and bases, are omitted;
the program never reads them). -/
structure StmtClassDef : Type where
  name : String
  body : List Stmt

/-- The parser library's accessor used at src/main.rs line 31: returns the
class-definition payload when the statement's variant is a class
definition, and nothing otherwise. -/
def Stmt.as_class_def_stmt : Stmt → Option StmtClassDef
  | .classDef n b => some ⟨n, b⟩
  | _ => none

/-- Variant test: is this statement a class definition? -/
def Stmt.is_class_def (s : Stmt) : Bool :=
  s.as_class_def_stmt.isSome

/-- Re-wrap a class-definition payload as a statement node. -/
def StmtClassDef.toStmt (c : StmtClassDef) : Stmt :=
  .classDef c.name c.body

/-- The Statement Filter, embedded from src/main.rs lines 29-32:
`stmts.iter().filter_map(|stmt| stmt.as_class_def_stmt()).collect()`. -/
def filter_class_defs (stmts : List Stmt) : List StmtClassDef :=
  stmts.filterMap Stmt.as_class_def_stmt

/-- A Class Descriptor: a qualified name (ordered sequence of identifiers
from the module root) and the ordered, always-present sequence of child
descriptors. -/
inductive ClassDescriptor : Type where
  | mk (qualified_name : List String) (children : List ClassDescriptor)

/-- The qualified name of a descriptor. -/
def ClassDescriptor.qualified_name : ClassDescriptor → List String
  | .mk q _ => q

/-- The children of a descriptor. -/
def ClassDescriptor.children : ClassDescriptor → List ClassDescriptor
  | .mk _ c => c

theorem sizeOf_lt_of_mem_filter_class_defs {cd : StmtClassDef} {l : List Stmt}
    (h : cd ∈ filter_class_defs l) : sizeOf cd < sizeOf l := by
  rcases List.mem_filterMap.mp h with ⟨s, hs, he⟩
  have hlt := List.sizeOf_lt_of_mem hs
  cases s <;> simp only [Stmt.as_class_def_stmt, Option.some.injEq,
    reduceCtorEq] at he
  subst he
  simp only [Stmt.classDef.sizeOf_spec, StmtClassDef.mk.sizeOf_spec] at *
  omega

/-- Modelled from the spec: the Hierarchy Builder's `build` operation, which
is absent from src/main.rs.  Given a class-definition node and the
qualified-name prefix of its lexical parent, it computes the node's
qualified name by appending the local name to the prefix, applies the
Statement Filter to the node's body, and recursively builds a child
descriptor from each nested class definition, in body order. -/
def build (c : StmtClassDef) (pfx : List String) : ClassDescriptor :=
  .mk (pfx ++ [c.name])
    ((filter_class_defs c.body).attach.map
      (fun cd => build cd.1 (pfx ++ [c.name])))
termination_by sizeOf c
decreasing_by
  have h1 := sizeOf_lt_of_mem_filter_class_defs cd.2
  cases c with
  | mk n b =>
    simp only [StmtClassDef.mk.sizeOf_spec] at *
    omega

/-- Unfolding equation for `build`, with the `attach` bookkeeping removed. -/
theorem build_eq (c : StmtClassDef) (pfx : List String) :
    build c pfx = .mk (pfx ++ [c.name])
      ((filter_class_defs c.body).map (fun cd => build cd (pfx ++ [c.name]))) := by
  rw [build]
  congr 1
  exact List.attach_map_coe (filter_class_defs c.body)
    (fun cd => build cd (pfx ++ [c.name]))

/-- Modelled from the spec: `build_forest`, absent from src/main.rs.  It
applies the Statement Filter to the module's top-level statements and
builds each resulting class definition with an empty prefix, in source
order. -/
def build_forest (module_statements : List Stmt) : List ClassDescriptor :=
  (filter_class_defs module_statements).map (fun c => build c [])

/-- The `Class` record exactly as declared at src/main.rs lines 11-14: the
qualified name is stored as a single string and the children sequence is
optional (it can be absent). -/
inductive Class : Type where
  | mk (qualname : String) (children : Option (List Class))

/-- The `qualname` field of the code's `Class` record. -/
def Class.qualname : Class → String
  | .mk q _ => q

/-- The `children` field of the code's `Class` record. -/
def Class.children : Class → Option (List Class)
  | .mk _ c => c

/-- The fixed display separator joining a qualified-name sequence into a
single string. -/
def dot_join (q : List String) : String :=
  String.intercalate "." q

/-- The parser's mode argument (src/main.rs line 23 passes `Mode::Module`). -/
inductive Mode : Type where
  | module
  | interactive
  | expression

/-- A parse error as surfaced by the parser library: a textual cause plus
the source-path string the parser was handed for use in its reports. -/
structure ParseError : Type where
  message : String
  source_path : String

/-- The two failure classes of `main`: a file-read failure (the error text
of the read) or a parse failure; `main` propagates either with `?`. -/
inductive MainError : Type where
  | ioError (cause : String)
  | parseError (e : ParseError)

/-- The control flow of `main` (src/main.rs lines 16-34), parametric over
its two external collaborators: `read_to_string` (the file system) and
`parse` (the parser library, taking source text, a mode and a source-path
string).  On a read failure or parse failure the error propagates; on
success the module body is filtered for class definitions — the result is
bound to `classdefs` and never consumed — and `main` returns the unit
value.  A run returning `Except.ok ()` exits with code 0; an error run
exits non-zero after reporting the error's cause. -/
def main (filename : String)
    (read_to_string : String → Except String String)
    (parse : String → Mode → String → Except ParseError (List Stmt)) :
    Except MainError Unit :=
  match read_to_string filename with
  | .error e => .error (.ioError e)
  | .ok source =>
    match parse source Mode.module "Mike Ehrmantraut" with
    | .error e => .error (.parseError e)
    | .ok stmts =>
      let classdefs := filter_class_defs stmts
      .ok ()

/-- The process exit code induced by `main`'s result: 0 when `main`
returns `Ok(())`, non-zero (1) when it returns an error. -/
def exit_code : Except MainError Unit → Nat
  | .ok _ => 0
  | .error _ => 1

theorem filter_class_defs_nil : filter_class_defs [] = [] := rfl

theorem filter_class_defs_cons_classDef (n : String) (b : List Stmt)
    (rest : List Stmt) :
    filter_class_defs (Stmt.classDef n b :: rest) = ⟨n, b⟩ :: filter_class_defs rest := rfl

theorem filter_class_defs_cons_of_not_class {s : Stmt} (rest : List Stmt)
    (h : s.as_class_def_stmt = none) :
    filter_class_defs (s :: rest) = filter_class_defs rest := by
  simp [filter_class_defs, List.filterMap_cons, h]

/-- Claim C2: the Statement Filter returns exactly the sub-sequence of
statements whose variant is a class definition, in the original order and
with no other statement kinds included (mapping each returned payload back
to its statement node reproduces precisely the class-definition filter of
the input); it is a total function (a pure projection), and the empty input
yields the empty output. -/
theorem filter_class_defs_spec :
    (∀ stmts : List Stmt,
      (filter_class_defs stmts).map StmtClassDef.toStmt
        = stmts.filter Stmt.is_class_def)
    ∧ filter_class_defs [] = [] := by
  refine ⟨fun stmts => ?_, rfl⟩
  induction stmts with
  | nil => rfl
  | cons s rest ih =>
    cases s <;>
      simp [filter_class_defs, List.filterMap_cons, List.filter_cons,
        Stmt.as_class_def_stmt, Stmt.is_class_def, StmtClassDef.toStmt] <;>
      simpa [filter_class_defs] using ih

/-- Claim C1: `build` returns a descriptor whose qualified name is the
prefix with the class's local name appended and whose children are the
recursive builds, under the extended prefix, of the class-definition
statements of the body in body order; and `build_forest` applies the
Statement Filter to the module's top-level statements and builds each
result with the empty prefix, in source order. -/
theorem build_build_forest_spec :
    (∀ (c : StmtClassDef) (pfx : List String),
      (build c pfx).qualified_name = pfx ++ [c.name]
        ∧ (build c pfx).children
          = (filter_class_defs c.body).map (fun cd => build cd (pfx ++ [c.name])))
    ∧ ∀ ms : List Stmt,
      build_forest ms = (filter_class_defs ms).map (fun c => build c []) := by
  constructor
  · intro c pfx
    rw [build_eq]
    exact ⟨rfl, rfl⟩
  · intro ms
    rfl

/-- Membership of a descriptor at a given depth below a root descriptor:
`DescAtDepth r k d` holds when `d` is reached from `r` by descending
through `k` child links. -/
inductive DescAtDepth : ClassDescriptor → Nat → ClassDescriptor → Prop where
  | refl (d : ClassDescriptor) : DescAtDepth d 0 d
  | child {d c e : ClassDescriptor} {k : Nat} :
      c ∈ d.children → DescAtDepth c k e → DescAtDepth d (k + 1) e

/-- A descriptor occurring in the forest at nesting depth `k` (`k = 0` for
the root-level descriptors themselves). -/
def InForestAtDepth (forest : List ClassDescriptor) (k : Nat)
    (d : ClassDescriptor) : Prop :=
  ∃ r ∈ forest, DescAtDepth r k d

theorem mem_children_build {d : ClassDescriptor} {c : StmtClassDef}
    {pfx : List String} (h : d ∈ (build c pfx).children) :
    ∃ cd ∈ filter_class_defs c.body, d = build cd (pfx ++ [c.name]) := by
  rw [build_eq] at h
  simp only [ClassDescriptor.children] at h
  rcases List.mem_map.mp h with ⟨cd, hcd, heq⟩
  exact ⟨cd, hcd, heq.symm⟩

theorem descAtDepth_build {r d : ClassDescriptor} {k : Nat}
    (h : DescAtDepth r k d) :
    ∀ (c : StmtClassDef) (pfx : List String), r = build c pfx →
      ∃ (cd : StmtClassDef) (q : List String),
        d = build cd q ∧ q.length = pfx.length + k := by
  induction h with
  | refl e => exact fun c pfx hr => ⟨c, pfx, hr, rfl⟩
  | child hmem hdesc ih =>
    intro c pfx hr
    subst hr
    obtain ⟨cd, hcd, hceq⟩ := mem_children_build hmem
    obtain ⟨cd2, q2, hdeq, hlen⟩ := ih cd (pfx ++ [c.name]) hceq
    refine ⟨cd2, q2, hdeq, ?_⟩
    simp only [List.length_append, List.length_cons, List.length_nil] at hlen
    omega

/-- Claim C3: every descriptor in the forest of a module has a qualified
name of length its nesting depth plus one (length 1 exactly at root level),
and each of its children's qualified names is exactly the descriptor's own
qualified name with the child's local name appended. -/
theorem qualified_name_invariant {ms : List Stmt} {k : Nat}
    {d : ClassDescriptor} (h : InForestAtDepth (build_forest ms) k d) :
    d.qualified_name.length = k + 1
    ∧ ∀ e ∈ d.children, ∃ n, e.qualified_name = d.qualified_name ++ [n] := by
  obtain ⟨r, hr, hdesc⟩ := h
  simp only [build_forest] at hr
  rcases List.mem_map.mp hr with ⟨c0, hc0, hr0⟩
  obtain ⟨cd, q, hdeq, hlen⟩ := descAtDepth_build hdesc c0 [] hr0.symm
  subst hdeq
  constructor
  · rw [build_eq]
    simp only [ClassDescriptor.qualified_name, List.length_append,
      List.length_cons, List.length_nil] at *
    omega
  · intro e he
    obtain ⟨cd2, hcd2, heeq⟩ := mem_children_build he
    subst heeq
    refine ⟨cd2.name, ?_⟩
    rw [build_eq, build_eq]
    simp only [ClassDescriptor.qualified_name]

/-- Witness for C3 at the module `class A: class B: pass`: the descriptor
of `B` sits at depth 1, its qualified name has length 2, and each of its
children (there are none) extends its qualified name. -/
theorem qualified_name_invariant_witness :
    (build ⟨"B", []⟩ ["A"]).qualified_name.length = 1 + 1
    ∧ ∀ e ∈ (build ⟨"B", []⟩ ["A"]).children,
        ∃ n, e.qualified_name = (build ⟨"B", []⟩ ["A"]).qualified_name ++ [n] :=
  @qualified_name_invariant [Stmt.classDef "A" [Stmt.classDef "B" []]] 1
    (build ⟨"B", []⟩ ["A"])
    (by
      refine ⟨build ⟨"A", [Stmt.classDef "B" []]⟩ [], ?_, ?_⟩
      · simp only [build_forest, filter_class_defs_cons_classDef,
          filter_class_defs_nil, List.map_cons, List.map_nil]
        exact List.mem_singleton.mpr rfl
      · refine DescAtDepth.child (c := build ⟨"B", []⟩ ["A"]) ?_
          (DescAtDepth.refl _)
        rw [build_eq]
        simp only [ClassDescriptor.children, filter_class_defs_cons_classDef,
          filter_class_defs_nil, List.map_cons, List.map_nil, List.nil_append]
        exact List.mem_singleton.mpr rfl)

theorem filter_class_defs_erase_functionDef (l1 : List Stmt) (fn : String)
    (fb l2 : List Stmt) :
    filter_class_defs (l1 ++ Stmt.functionDef fn fb :: l2)
      = filter_class_defs (l1 ++ l2) := by
  simp [filter_class_defs, List.filterMap_append, List.filterMap_cons,
    Stmt.as_class_def_stmt]

theorem build_body_filter_congr {n : String} {b b' : List Stmt}
    {pfx : List String} (h : filter_class_defs b = filter_class_defs b') :
    build ⟨n, b⟩ pfx = build ⟨n, b'⟩ pfx := by
  rw [build_eq, build_eq]
  simp [h]

/-- Claim C6: function-definition statements and their entire bodies are
transparent to the builder — removing one changes neither the forest nor
any descriptor — so a class definition occurring only inside a function
body never appears anywhere in the produced forest; in particular the
module `def f(): class Inner: pass` yields the empty forest. -/
theorem function_body_classes_never_surface :
    (∀ (ms1 : List Stmt) (fn : String) (fb ms2 : List Stmt),
      build_forest (ms1 ++ Stmt.functionDef fn fb :: ms2)
        = build_forest (ms1 ++ ms2))
    ∧ (∀ (n : String) (b1 : List Stmt) (fn : String) (fb b2 : List Stmt)
        (pfx : List String),
      build ⟨n, b1 ++ Stmt.functionDef fn fb :: b2⟩ pfx
        = build ⟨n, b1 ++ b2⟩ pfx)
    ∧ build_forest [Stmt.functionDef "f" [Stmt.classDef "Inner" []]] = [] := by
  refine ⟨fun ms1 fn fb ms2 => ?_, fun n b1 fn fb b2 pfx => ?_, rfl⟩
  · simp only [build_forest, filter_class_defs_erase_functionDef]
  · exact build_body_filter_congr (filter_class_defs_erase_functionDef b1 fn fb b2)

/-- Height of a descriptor tree: 1 for a childless descriptor, one more
than the maximum child height otherwise; this is the recursion depth
`build` used to produce the tree. -/
def ClassDescriptor.height : ClassDescriptor → Nat
  | .mk q cs => 1 + ((cs.attach.map (fun x => x.1.height)).foldr max 0)
termination_by d => sizeOf d
decreasing_by
  have h1 := List.sizeOf_lt_of_mem x.2
  simp only [ClassDescriptor.mk.sizeOf_spec]
  omega

/-- The class-nesting depth of a class-definition node: 1 for a class with
no nested classes, one more than the deepest nested class otherwise. -/
def StmtClassDef.nesting_depth (c : StmtClassDef) : Nat :=
  1 + (((filter_class_defs c.body).attach.map
    (fun x => x.1.nesting_depth)).foldr max 0)
termination_by sizeOf c
decreasing_by
  have h1 := sizeOf_lt_of_mem_filter_class_defs x.2
  cases c with
  | mk n b =>
    simp only [StmtClassDef.mk.sizeOf_spec] at *
    omega

theorem height_eq (q : List String) (cs : List ClassDescriptor) :
    ClassDescriptor.height (.mk q cs)
      = 1 + (cs.map ClassDescriptor.height).foldr max 0 := by
  rw [ClassDescriptor.height]
  congr 1
  congr 1
  exact List.attach_map_coe cs ClassDescriptor.height

theorem nesting_depth_eq (c : StmtClassDef) :
    c.nesting_depth
      = 1 + ((filter_class_defs c.body).map StmtClassDef.nesting_depth).foldr max 0 := by
  rw [StmtClassDef.nesting_depth]
  congr 1
  congr 1
  exact List.attach_map_coe (filter_class_defs c.body) StmtClassDef.nesting_depth

theorem sizeOf_body_lt (c : StmtClassDef) : sizeOf c.body < sizeOf c := by
  cases c with
  | mk n b =>
    simp only [StmtClassDef.mk.sizeOf_spec]
    omega

theorem build_height_aux :
    ∀ (N : Nat) (c : StmtClassDef), sizeOf c ≤ N →
      ∀ pfx, (build c pfx).height = c.nesting_depth := by
  intro N
  induction N with
  | zero =>
    intro c h
    exfalso
    have := sizeOf_body_lt c
    omega
  | succ N ih =>
    intro c hle pfx
    rw [build_eq, height_eq, nesting_depth_eq]
    congr 1
    rw [List.map_map]
    apply congrArg (List.foldr max 0)
    apply List.map_congr_left
    intro cd hcd
    have h1 := sizeOf_lt_of_mem_filter_class_defs hcd
    have h2 := sizeOf_body_lt c
    exact ih cd (by omega) (pfx ++ [c.name])

/-- Claim C7: `build` is a total function — it is defined by recursion on
the finite, acyclic syntax tree (well-founded on the tree's size, with no
cycle detection), so it terminates on every input — and the height of the
descriptor tree it returns, which is the depth of the recursion performed,
equals the class-nesting depth of the input class definition. -/
theorem build_terminates_height :
    (∀ (c : StmtClassDef) (pfx : List String), ∃ d, build c pfx = d)
    ∧ ∀ (c : StmtClassDef) (pfx : List String),
        (build c pfx).height = c.nesting_depth :=
  ⟨fun c pfx => ⟨build c pfx, rfl⟩,
   fun c pfx => build_height_aux (sizeOf c) c le_rfl pfx⟩

/-- Claim C8: a run whose read and parse both succeed exits with code 0;
a file-read failure or a parse failure propagates out of `main` carrying
the failure's textual cause and exits with a non-zero code; and the core
itself has no error conditions — `build` is total and always returns a
descriptor. -/
theorem main_exit_codes :
    ∀ (filename : String) (read_to_string : String → Except String String)
      (parse : String → Mode → String → Except ParseError (List Stmt)),
      ((∃ src stmts, read_to_string filename = .ok src
          ∧ parse src Mode.module "Mike Ehrmantraut" = .ok stmts) →
        exit_code (main filename read_to_string parse) = 0)
      ∧ (∀ cause, read_to_string filename = .error cause →
          main filename read_to_string parse = .error (.ioError cause)
          ∧ exit_code (main filename read_to_string parse) ≠ 0)
      ∧ (∀ src e, read_to_string filename = .ok src →
          parse src Mode.module "Mike Ehrmantraut" = .error e →
          main filename read_to_string parse = .error (.parseError e)
          ∧ exit_code (main filename read_to_string parse) ≠ 0)
      ∧ ∀ (c : StmtClassDef) (pfx : List String), ∃ d, build c pfx = d := by
  intro filename rts parse
  refine ⟨?_, ?_, ?_, fun c pfx => ⟨build c pfx, rfl⟩⟩
  · rintro ⟨src, stmts, h1, h2⟩
    simp [main, h1, h2, exit_code]
  · intro cause h1
    simp [main, h1, exit_code]
  · intro src e h1 h2
    simp [main, h1, h2, exit_code]

/-- Witness for C8: a successful run exits 0; a read failure and a parse
failure each produce the corresponding error, with a non-zero exit code. -/
theorem main_exit_codes_witness :
    exit_code (main "m.py" (fun _ => .ok "class A: pass")
        (fun _ _ _ => .ok [Stmt.classDef "A" []])) = 0
    ∧ (main "m.py" (fun _ => .error "No such file (os error 2)")
        (fun _ _ _ => .ok []) = .error (.ioError "No such file (os error 2)")
      ∧ exit_code (main "m.py" (fun _ => .error "No such file (os error 2)")
          (fun _ _ _ => .ok [])) ≠ 0)
    ∧ (main "m.py" (fun _ => .ok "def f(")
        (fun _ _ p => .error ⟨"invalid syntax", p⟩)
          = .error (.parseError ⟨"invalid syntax", "Mike Ehrmantraut"⟩)
      ∧ exit_code (main "m.py" (fun _ => .ok "def f(")
          (fun _ _ p => .error ⟨"invalid syntax", p⟩)) ≠ 0) :=
  ⟨(main_exit_codes "m.py" (fun _ => .ok "class A: pass")
      (fun _ _ _ => .ok [Stmt.classDef "A" []])).1
        ⟨"class A: pass", [Stmt.classDef "A" []], rfl, rfl⟩,
   (main_exit_codes "m.py" (fun _ => .error "No such file (os error 2)")
      (fun _ _ _ => .ok [])).2.1 "No such file (os error 2)" rfl,
   (main_exit_codes "m.py" (fun _ => .ok "def f(")
      (fun _ _ p => .error ⟨"invalid syntax", p⟩)).2.2.1 "def f("
        ⟨"invalid syntax", "Mike Ehrmantraut"⟩ rfl rfl⟩

/-- Claim C9: on every run whose read and parse succeed, `main` returns
`Ok(())` — the unit value, carrying no descriptor and no output — and the
exit code is 0, regardless of what the parsed module contains: the
filtered class definitions are bound but never consumed, and no `Class`
value is ever constructed along this path. -/
theorem main_success_yields_unit :
    ∀ (filename : String) (read_to_string : String → Except String String)
      (parse : String → Mode → String → Except ParseError (List Stmt))
      (src : String) (stmts : List Stmt),
      read_to_string filename = .ok src →
      parse src Mode.module "Mike Ehrmantraut" = .ok stmts →
      main filename read_to_string parse = Except.ok ()
      ∧ exit_code (main filename read_to_string parse) = 0 := by
  intro filename rts parse src stmts h1 h2
  constructor <;> simp [main, h1, h2, exit_code]

/-- Witness for C9: a module that does contain (nested) classes still
yields only `Ok(())` and exit code 0. -/
theorem main_success_yields_unit_witness :
    main "m.py" (fun _ => .ok "class A: class B: pass")
      (fun _ _ _ => .ok [Stmt.classDef "A" [Stmt.classDef "B" []]])
        = Except.ok ()
    ∧ exit_code (main "m.py" (fun _ => .ok "class A: class B: pass")
        (fun _ _ _ => .ok [Stmt.classDef "A" [Stmt.classDef "B" []]])) = 0 :=
  main_success_yields_unit "m.py" (fun _ => .ok "class A: class B: pass")
    (fun _ _ _ => .ok [Stmt.classDef "A" [Stmt.classDef "B" []]])
    "class A: class B: pass" [Stmt.classDef "A" [Stmt.classDef "B" []]] rfl rfl

/-- Claim C10: `main` hands the parser the fixed literal source-path
"Mike Ehrmantraut" instead of the command-line filename, so — for any
parser that reports in its errors the source path it was handed — every
parse error surfaced by `main` identifies the source as
"Mike Ehrmantraut", and never as the filename whenever the filename
differs from that literal. -/
theorem parse_error_reports_fixed_path :
    ∀ (filename : String) (read_to_string : String → Except String String)
      (parse : String → Mode → String → Except ParseError (List Stmt)),
      (∀ src mode path e, parse src mode path = .error e →
        e.source_path = path) →
      ∀ e, main filename read_to_string parse = .error (.parseError e) →
        e.source_path = "Mike Ehrmantraut"
        ∧ (filename ≠ "Mike Ehrmantraut" → e.source_path ≠ filename) := by
  intro filename rts parse hparse e hmain
  have hsp : e.source_path = "Mike Ehrmantraut" := by
    unfold main at hmain
    cases h1 : rts filename with
    | error c =>
      rw [h1] at hmain
      simp at hmain
    | ok src =>
      rw [h1] at hmain
      simp only [] at hmain
      cases h2 : parse src Mode.module "Mike Ehrmantraut" with
      | error e2 =>
        rw [h2] at hmain
        simp at hmain
        exact hmain ▸ hparse src Mode.module "Mike Ehrmantraut" e2 h2
      | ok stmts =>
        rw [h2] at hmain
        simp at hmain
  refine ⟨hsp, fun hne => ?_⟩
  rw [hsp]
  exact Ne.symm hne

/-- Witness for C10: with a parser that always fails and reports the path
it was handed, a run on the file "module.py" surfaces a parse error whose
source path is "Mike Ehrmantraut", not "module.py". -/
theorem parse_error_reports_fixed_path_witness :
    (⟨"invalid syntax. Got unexpected EOF", "Mike Ehrmantraut"⟩
        : ParseError).source_path = "Mike Ehrmantraut"
    ∧ ("module.py" ≠ "Mike Ehrmantraut" →
        (⟨"invalid syntax. Got unexpected EOF", "Mike Ehrmantraut"⟩
          : ParseError).source_path ≠ "module.py") :=
  parse_error_reports_fixed_path "module.py" (fun _ => .ok "def f(")
    (fun _ _ p => .error ⟨"invalid syntax. Got unexpected EOF", p⟩)
    (by
      intro src mode path e h
      injection h with h1
      subst h1
      rfl)
    ⟨"invalid syntax. Got unexpected EOF", "Mike Ehrmantraut"⟩ rfl

/-- Claim C4, the code evaluated at the failing input: the `children`
field of the code's `Class` record is optional — the absent value `None`
inhabits it — so a descriptor without any (even empty) children sequence
is representable, contradicting "empty, never absent". -/
theorem class_children_absent :
    (Class.mk "A" none).children = none ∧ ∃ c : Class, c.children = none :=
  ⟨rfl, ⟨Class.mk "A" none, rfl⟩⟩

/-- Claim C5, the code evaluated at the failing input: the code's `Class`
record stores the qualified name as a single string, and a string joined
with the display separator conflates distinct qualified-name sequences —
the distinct sequences ["A.B"] and ["A", "B"] are stored identically. -/
theorem qualname_string_storage_ambiguous :
    (Class.mk (dot_join ["A.B"]) none).qualname
      = (Class.mk (dot_join ["A", "B"]) none).qualname
    ∧ (["A.B"] : List String) ≠ ["A", "B"] := by
  refine ⟨?_, by decide⟩
  show dot_join ["A.B"] = dot_join ["A", "B"]
  rfl

end ClassForest
